import Mathlib

/-!
# Verification of the lab9 todo-list model and storage adapter

Shallow embedding of the `TodoModel` class (src/tests/todo-model.test.js,
which carries the model source at lines 401-610) and the `StorageService`
adapter (src/src/services/storage-service.js), with proofs of the
specification's claims about them.

Side effects are made explicit: every mutating operation returns the new
model, the new store snapshot, and the number of `notify()` calls it
performed.  `notify()` runs `listeners.forEach(l => l())`, invoking each
registered subscriber exactly once per call, so a subscriber is invoked
exactly `notifies` times during an operation.
-/

namespace Lab9

/-- The set of whitespace characters stripped by JS `String.prototype.trim`
(ASCII whitespace, NBSP, BOM, line/paragraph separators). -/
def isJsWhitespace (c : Char) : Bool :=
  c = ' ' || c = '\t' || c = '\n' || c = '\r' || c = '\x0b' || c = '\x0c' ||
  c = ' ' || c = '﻿' || c = ' ' || c = ' '

/-- JS `String.prototype.trim`: strips leading and trailing whitespace. -/
def jsTrim (s : String) : String :=
  ⟨((s.data.dropWhile isJsWhitespace).reverse.dropWhile isJsWhitespace).reverse⟩

/-- One task record, as created by `TodoModel.addTodo`:
`{ id, text, completed, createdAt }` (createdAt is an ISO timestamp string). -/
structure Todo where
  id : Nat
  text : String
  completed : Bool
  createdAt : String
deriving Repr, DecidableEq

/-- In-memory state of a `TodoModel` instance: the ordered task list and the
`nextId` counter.  (The listener list holds opaque callbacks; operations
report the number of `notify()` calls instead.) -/
structure TodoModel where
  todos : List Todo
  nextId : Nat
deriving Repr, DecidableEq

/-- The storage snapshot seen through the model's two keys, `items` and
`nextId`; `none` means the key is absent.  `load(key, default)` on the test
double returns the stored value when the key is present, else the default. -/
structure MStore where
  items : Option (List Todo)
  nextId : Option Nat
deriving Repr, DecidableEq

/-- `TodoModel.save()`: `storage.save('items', this.todos);
storage.save('nextId', this.nextId)` — overwrites both keys with the
current model state. -/
def TodoModel.saveTo (m : TodoModel) : MStore :=
  { items := some m.todos, nextId := some m.nextId }

/-- Result of one mutating call: the model and store afterwards, and the
number of `notify()` calls made (each invokes every subscriber once). -/
structure OpResult where
  model : TodoModel
  store : MStore
  notifies : Nat
deriving Repr, DecidableEq

/-- Result of running the constructor: the fresh model, the store
afterwards, and counts of the write/notify effects performed. -/
structure InitResult where
  model : TodoModel
  store : MStore
  saveCalls : Nat
  removeCalls : Nat
  notifies : Nat
deriving Repr, DecidableEq

/-- `new TodoModel(storage)`: `this.todos = storage.load('items', []);
this.listeners = []; this.nextId = storage.load('nextId', 1)`.  The
constructor only reads; it performs no save/remove and no notification. -/
def TodoModel.init (s : MStore) : InitResult :=
  { model := { todos := s.items.getD [], nextId := s.nextId.getD 1 }
    store := s
    saveCalls := 0
    removeCalls := 0
    notifies := 0 }

/-- `TodoModel.addTodo(text)`: returns early if `!text || text.trim() === ''`;
otherwise pushes `{ id: this.nextId++, text: text.trim(), completed: false,
createdAt: now }`, saves, and notifies.  `now` stands for
`new Date().toISOString()`. -/
def TodoModel.addTodo (m : TodoModel) (s : MStore) (text : String) (now : String) :
    OpResult :=
  if text = "" ∨ jsTrim text = "" then
    { model := m, store := s, notifies := 0 }
  else
    let todo : Todo :=
      { id := m.nextId, text := jsTrim text, completed := false, createdAt := now }
    let m' : TodoModel := { todos := m.todos ++ [todo], nextId := m.nextId + 1 }
    { model := m', store := m'.saveTo, notifies := 1 }

/-- In-place mutation of the first task matching `id` (the object returned by
`this.todos.find(t => t.id === id)`): flip its `completed` flag. -/
def toggleFirst (id : Nat) : List Todo → List Todo
  | [] => []
  | t :: ts =>
    if t.id = id then { t with completed := !t.completed } :: ts
    else t :: toggleFirst id ts

/-- `TodoModel.toggleComplete(id)`: if `this.todos.find(t => t.id === id)`
finds a task, flip its `completed`, save, notify; otherwise do nothing. -/
def TodoModel.toggleComplete (m : TodoModel) (s : MStore) (id : Nat) : OpResult :=
  match m.todos.find? (fun t => t.id == id) with
  | some _ =>
    let m' : TodoModel := { m with todos := toggleFirst id m.todos }
    { model := m', store := m'.saveTo, notifies := 1 }
  | none => { model := m, store := s, notifies := 0 }

/-- `TodoModel.deleteTodo(id)`: `this.todos = this.todos.filter(t => t.id !== id)`,
then save and notify — unconditionally, even when no task matched. -/
def TodoModel.deleteTodo (m : TodoModel) (s : MStore) (id : Nat) : OpResult :=
  let m' : TodoModel := { m with todos := m.todos.filter (fun t => t.id != id) }
  { model := m', store := m'.saveTo, notifies := 1 }

/-- In-place mutation of the first task matching `id`: replace its `text`
with the trimmed new text. -/
def updateFirst (id : Nat) (newText : String) : List Todo → List Todo
  | [] => []
  | t :: ts =>
    if t.id = id then { t with text := jsTrim newText } :: ts
    else t :: updateFirst id newText ts

/-- `TodoModel.updateTodo(id, newText)`: only when the task is found and
`newText && newText.trim() !== ''`, set its `text` to the trimmed value,
save, notify; otherwise do nothing. -/
def TodoModel.updateTodo (m : TodoModel) (s : MStore) (id : Nat) (newText : String) :
    OpResult :=
  if (m.todos.find? (fun t => t.id == id)).isSome ∧ newText ≠ "" ∧ jsTrim newText ≠ "" then
    let m' : TodoModel := { m with todos := updateFirst id newText m.todos }
    { model := m', store := m'.saveTo, notifies := 1 }
  else
    { model := m, store := s, notifies := 0 }

/-- `TodoModel.clearCompleted()`: `this.todos = this.todos.filter(t => !t.completed)`,
then save and notify — unconditionally. -/
def TodoModel.clearCompleted (m : TodoModel) (s : MStore) : OpResult :=
  let m' : TodoModel := { m with todos := m.todos.filter (fun t => !t.completed) }
  { model := m', store := m'.saveTo, notifies := 1 }

/-- `TodoModel.clearAll()`: `this.todos = []`, then save and notify. -/
def TodoModel.clearAll (m : TodoModel) (s : MStore) : OpResult :=
  let m' : TodoModel := { m with todos := [] }
  { model := m', store := m'.saveTo, notifies := 1 }

/-- `get activeCount()`: `this.todos.filter(t => !t.completed).length`. -/
def TodoModel.activeCount (m : TodoModel) : Nat :=
  (m.todos.filter (fun t => !t.completed)).length

/-- `get completedCount()`: `this.todos.filter(t => t.completed).length`. -/
def TodoModel.completedCount (m : TodoModel) : Nat :=
  (m.todos.filter (fun t => t.completed)).length

/-- `jsTrim` of the empty string is empty. -/
theorem jsTrim_empty : jsTrim "" = "" := rfl

/-- The guard of `addTodo` collapses to whether the trimmed text is empty. -/
theorem addTodo_guard (text : String) :
    (text = "" ∨ jsTrim text = "") ↔ jsTrim text = "" := by
  constructor
  · rintro (h | h)
    · rw [h]
      exact jsTrim_empty
    · exact h
  · exact Or.inr

/-- C1: for every input `text`, if `text` trims to a non-empty string then
`addTodo` appends exactly one task at the end whose text is the trimmed
input, whose `completed` flag is `false` and whose id is the model's
`nextId` at the time of the call; if the trimmed text is empty the call is
a no-op on the model, the store and the subscribers. -/
theorem addTodo_correct (m : TodoModel) (s : MStore) (text now : String) :
    (jsTrim text ≠ "" →
      (m.addTodo s text now).model.todos
        = m.todos ++ [{ id := m.nextId, text := jsTrim text, completed := false,
                        createdAt := now }]) ∧
    (jsTrim text = "" →
      (m.addTodo s text now).model = m ∧ (m.addTodo s text now).store = s ∧
        (m.addTodo s text now).notifies = 0) := by
  unfold TodoModel.addTodo
  constructor
  · intro h
    rw [if_neg]
    intro hguard
    exact h ((addTodo_guard text).mp hguard)
  · intro h
    rw [if_pos (Or.inr h)]
    exact ⟨rfl, rfl, rfl⟩

/-- Witness for C1 at concrete inputs: adding `"  A "` to an empty model
appends the trimmed task with id 1, and adding `"   "` changes nothing. -/
theorem addTodo_correct_witness :
    ((TodoModel.addTodo ⟨[], 1⟩ ⟨none, none⟩ "  A " "t0").model.todos
      = [{ id := 1, text := "A", completed := false, createdAt := "t0" }]) ∧
    ((TodoModel.addTodo ⟨[], 1⟩ ⟨none, none⟩ "   " "t0").model = (⟨[], 1⟩ : TodoModel)) := by
  constructor
  · have h := (addTodo_correct ⟨[], 1⟩ ⟨none, none⟩ "  A " "t0").1 (by decide)
    rw [h]
    rfl
  · exact ((addTodo_correct ⟨[], 1⟩ ⟨none, none⟩ "   " "t0").2 (by decide)).1

/-- Modelled from the spec: `TodoModel.importTasks` is invoked by
`TodoApp._handleFileImport` (src/src/components/todo-app.js:337) but its
definition is absent from the inspected source.  Per spec §6, the model's
importing operation replaces the entire current sequence with the supplied
parsed value and persists/notifies as a normal mutation; the spec leaves
id/counter handling open, so `nextId` is left unchanged here. -/
def TodoModel.importTasks (m : TodoModel) (s : MStore) (tasks : List Todo) : OpResult :=
  let m' : TodoModel := { m with todos := tasks }
  { model := m', store := m'.saveTo, notifies := 1 }

/-- C3: the Model's import operation replaces the entire current task
sequence with the supplied one, persists the full state (both keys), and
makes one `notify()` call, like any other mutation. -/
theorem importTasks_replaces (m : TodoModel) (s : MStore) (tasks : List Todo) :
    (m.importTasks s tasks).model.todos = tasks ∧
    (m.importTasks s tasks).store.items = some tasks ∧
    (m.importTasks s tasks).store.nextId = some (m.importTasks s tasks).model.nextId ∧
    (m.importTasks s tasks).notifies = 1 :=
  ⟨rfl, rfl, rfl, rfl⟩

/-- C4 counterexample: on a model holding only the task with id 1 (and with
a subscriber registered), `toggleComplete(999)` makes zero `notify()`
calls, so the registered subscribers are not invoked at all — refuting
"every mutating call invokes all registered subscribers exactly once per
call, even when the mutation was logically a no-op". -/
theorem toggleComplete_unknown_id_no_notify :
    (TodoModel.toggleComplete ⟨[⟨1, "Test", false, "t0"⟩], 2⟩
      ⟨some [⟨1, "Test", false, "t0"⟩], some 2⟩ 999).notifies = 0 := by
  decide

/-- C4 amended: `deleteTodo`, `clearCompleted` and `clearAll` make exactly
one `notify()` call per invocation even when the mutation changed nothing;
`addTodo` notifies exactly once when the text trims non-empty and not at
all otherwise; `toggleComplete` notifies exactly once when a task with the
id exists and not at all otherwise; `updateTodo` notifies exactly once when
the task exists and the new text trims non-empty, and not at all otherwise.
Each `notify()` call invokes every registered subscriber exactly once. -/
theorem notify_counts (m : TodoModel) (s : MStore) (id : Nat) (text now : String) :
    (m.deleteTodo s id).notifies = 1 ∧
    (m.clearCompleted s).notifies = 1 ∧
    (m.clearAll s).notifies = 1 ∧
    (m.addTodo s text now).notifies = (if text = "" ∨ jsTrim text = "" then 0 else 1) ∧
    (m.toggleComplete s id).notifies
      = (if (m.todos.find? (fun t => t.id == id)).isSome then 1 else 0) ∧
    (m.updateTodo s id text).notifies
      = (if (m.todos.find? (fun t => t.id == id)).isSome ∧ text ≠ "" ∧ jsTrim text ≠ ""
          then 1 else 0) := by
  refine ⟨rfl, rfl, rfl, ?_, ?_, ?_⟩
  · unfold TodoModel.addTodo
    split <;> simp_all
  · unfold TodoModel.toggleComplete
    rcases h : m.todos.find? (fun t => t.id == id) with _ | t <;> simp [h]
  · unfold TodoModel.updateTodo
    split <;> simp_all

/-- C7: for every model state, `activeCount` plus `completedCount` equals
the length of the task sequence — in particular after every operation. -/
theorem counts_partition (m : TodoModel) :
    m.activeCount + m.completedCount = m.todos.length := by
  unfold TodoModel.activeCount TodoModel.completedCount
  induction m.todos with
  | nil => rfl
  | cons t ts ih =>
    cases hc : t.completed <;> simp [List.filter_cons, hc] <;> omega

/-- C10: the `TodoModel` constructor only reads from the storage service —
it performs no save or remove, invokes no subscriber, leaves the store
exactly as it was, and takes the task list and counter exactly as read,
defaulting to `[]` and `1` when the keys are absent. -/
theorem init_only_reads (s : MStore) :
    (TodoModel.init s).store = s ∧
    (TodoModel.init s).saveCalls = 0 ∧
    (TodoModel.init s).removeCalls = 0 ∧
    (TodoModel.init s).notifies = 0 ∧
    (TodoModel.init s).model.todos = s.items.getD [] ∧
    (TodoModel.init s).model.nextId = s.nextId.getD 1 :=
  ⟨rfl, rfl, rfl, rfl, rfl, rfl⟩

/-- `StorageService.load(key, defaultValue)`
(src/src/services/storage-service.js:63-71):
`const item = this.storage.getItem(this.prefix + key);
return item ? JSON.parse(item) : defaultValue;` with the `catch` returning
`defaultValue`.  `store` is `getItem` (`none` = key absent / `null`),
`deserialize` is `JSON.parse` (`none` = throws), and the truthiness test
`item ?` sends both `null` and the empty string to `defaultValue`. -/
def StorageService.load {α : Type} (store : String → Option String)
    (deserialize : String → Option α) (pre key : String) (d : α) : α :=
  match store (pre ++ key) with
  | none => d
  | some item =>
    if item = "" then d
    else
      match deserialize item with
      | some v => v
      | none => d

/-- C6: for every key and default, `load` returns the default when the
namespaced key (prefix ++ key) is absent or deserialization of the stored
string fails, and returns the deserialized value when deserialization
succeeds — given that the deserializer fails on the empty string, as
`JSON.parse` does. -/
theorem load_default_or_value {α : Type} (store : String → Option String)
    (deserialize : String → Option α) (pre key : String) (d : α)
    (hempty : deserialize "" = none) :
    (store (pre ++ key) = none → StorageService.load store deserialize pre key d = d) ∧
    (∀ item, store (pre ++ key) = some item → deserialize item = none →
      StorageService.load store deserialize pre key d = d) ∧
    (∀ item v, store (pre ++ key) = some item → deserialize item = some v →
      StorageService.load store deserialize pre key d = v) := by
  refine ⟨?_, ?_, ?_⟩
  · intro h
    simp [StorageService.load, h]
  · intro item h hfail
    by_cases he : item = ""
    · simp [StorageService.load, h, he]
    · simp [StorageService.load, h, he, hfail]
  · intro item v h hok
    have he : item ≠ "" := by
      intro he
      rw [he, hempty] at hok
      exact Option.noConfusion hok
    simp [StorageService.load, h, he, hok]

/-- A deserializer that fails exactly on the empty string (as `JSON.parse`
does) and otherwise returns the string's length. -/
def lengthDeserialize (s : String) : Option Nat :=
  if s = "" then none else some s.length

/-- Witness for C6 at concrete inputs: a store holding `"7"` under
`"todo-items"` with a deserializer that fails on `""` loads the
deserialized value `1`, and a store without the key loads the default `0`. -/
theorem load_default_or_value_witness :
    StorageService.load (fun k => if k = "todo-items" then some "7" else none)
      lengthDeserialize "todo-" "items" 0 = 1 ∧
    StorageService.load (fun _ => (none : Option String))
      lengthDeserialize "todo-" "items" 0 = 0 :=
  ⟨(load_default_or_value (fun k => if k = "todo-items" then some "7" else none)
      lengthDeserialize "todo-" "items" 0 (by decide)).2.2 "7" 1 (by decide) (by decide),
   (load_default_or_value (fun _ => (none : Option String))
      lengthDeserialize "todo-" "items" 0 (by decide)).1 rfl⟩

/-- C9: if the store maps the namespaced key to the empty string, `load`
returns the default even though the key is present — and it does so for
every deserializer, even one that succeeds on `""`, because presence is
decided by the truthiness of the stored string. -/
theorem load_empty_string {α : Type} (store : String → Option String)
    (deserialize : String → Option α) (pre key : String) (d : α)
    (hpresent : store (pre ++ key) = some "") :
    StorageService.load store deserialize pre key d = d := by
  simp [StorageService.load, hpresent]

/-- Witness for C9 at concrete inputs: the key `"todo-items"` is present
holding `""`, the deserializer succeeds on `""` with value `42`, yet `load`
returns the default `0`. -/
theorem load_empty_string_witness :
    StorageService.load (fun k => if k = "todo-items" then some "" else none)
      (fun _ => some 42) "todo-" "items" 0 = 0 :=
  load_empty_string (fun k => if k = "todo-items" then some "" else none)
    (fun _ => some 42) "todo-" "items" 0 (by decide)

/-- C5: constructing a new `TodoModel` against a store previously written by
`add("A"); add("B"); toggleComplete(idOfA)` (starting from an empty store)
yields the sequence `[A(completed=true), B(completed=false)]` in that order
and a `nextId` equal to B's id (2) plus one. -/
theorem roundTrip_persistence (cA cB : String) :
    let s0 : MStore := ⟨none, none⟩
    let r1 := (TodoModel.init s0).model.addTodo s0 "A" cA
    let r2 := r1.model.addTodo r1.store "B" cB
    let r3 := r2.model.toggleComplete r2.store 1
    (TodoModel.init r3.store).model.todos
        = [⟨1, "A", true, cA⟩, ⟨2, "B", false, cB⟩] ∧
      (TodoModel.init r3.store).model.nextId = 2 + 1 :=
  ⟨rfl, rfl⟩

/-- When some task in the list matches `id`, `toggleFirst` splits the list
around the first match, flips exactly that task's `completed` flag, and
keeps every other task and the order intact. -/
theorem toggleFirst_spec (id : Nat) (l : List Todo) (h : ∃ t ∈ l, t.id = id) :
    ∃ pre t post,
      l = pre ++ t :: post ∧ t.id = id ∧ (∀ u ∈ pre, u.id ≠ id) ∧
      toggleFirst id l = pre ++ (⟨t.id, t.text, !t.completed, t.createdAt⟩ : Todo) :: post := by
  induction l with
  | nil => simp at h
  | cons a l ih =>
    by_cases ha : a.id = id
    · refine ⟨[], a, l, rfl, ha, by simp, ?_⟩
      simp [toggleFirst, ha]
    · obtain ⟨t, ht, htid⟩ := h
      rcases List.mem_cons.mp ht with rfl | htl
      · exact absurd htid ha
      · obtain ⟨pre, t', post, hl, htid', hpre, htf⟩ := ih ⟨t, htl, htid⟩
        refine ⟨a :: pre, t', post, ?_, htid', ?_, ?_⟩
        · rw [List.cons_append, hl]
        · intro u hu
          rcases List.mem_cons.mp hu with rfl | hu'
          · exact ha
          · exact hpre u hu'
        · simp [toggleFirst, ha, htf]

/-- C8: for every id present in the task sequence, `toggleComplete(id)`
changes only the `completed` field of the (first) task with that id: that
task's `id`, `text` and `createdAt`, every other task, the order and the
length of the sequence, and the `nextId` counter are all unchanged. -/
theorem toggleComplete_frame (m : TodoModel) (s : MStore) (id : Nat)
    (hmem : ∃ t ∈ m.todos, t.id = id) :
    ∃ pre t post,
      m.todos = pre ++ t :: post ∧ t.id = id ∧ (∀ u ∈ pre, u.id ≠ id) ∧
      (m.toggleComplete s id).model.todos
        = pre ++ (⟨t.id, t.text, !t.completed, t.createdAt⟩ : Todo) :: post ∧
      (m.toggleComplete s id).model.nextId = m.nextId ∧
      (m.toggleComplete s id).model.todos.length = m.todos.length := by
  obtain ⟨pre, t, post, hl, htid, hpre, htf⟩ := toggleFirst_spec id m.todos hmem
  have hfind : ∃ u, m.todos.find? (fun t => t.id == id) = some u := by
    cases hf : m.todos.find? (fun t => t.id == id) with
    | some u => exact ⟨u, rfl⟩
    | none =>
      obtain ⟨u, hu, huid⟩ := hmem
      have := List.find?_eq_none.mp hf u hu
      simp [huid] at this
  obtain ⟨u, hu⟩ := hfind
  refine ⟨pre, t, post, hl, htid, hpre, ?_, ?_, ?_⟩
  · simp [TodoModel.toggleComplete, hu, htf]
  · simp [TodoModel.toggleComplete, hu]
  · simp only [TodoModel.toggleComplete, hu]
    rw [htf, hl]
    simp

/-- Witness for C8 at a concrete input: toggling id 1 on the one-task model
flips exactly that task's `completed` flag and leaves `nextId` and the
length unchanged. -/
theorem toggleComplete_frame_witness :
    ∃ pre t post,
      ([⟨1, "A", false, "t0"⟩] : List Todo) = pre ++ t :: post ∧ t.id = 1 ∧
      (∀ u ∈ pre, u.id ≠ 1) ∧
      (TodoModel.toggleComplete ⟨[⟨1, "A", false, "t0"⟩], 2⟩ ⟨none, none⟩ 1).model.todos
        = pre ++ (⟨t.id, t.text, !t.completed, t.createdAt⟩ : Todo) :: post ∧
      (TodoModel.toggleComplete ⟨[⟨1, "A", false, "t0"⟩], 2⟩ ⟨none, none⟩ 1).model.nextId = 2 ∧
      (TodoModel.toggleComplete ⟨[⟨1, "A", false, "t0"⟩], 2⟩ ⟨none, none⟩ 1).model.todos.length
        = ([⟨1, "A", false, "t0"⟩] : List Todo).length :=
  toggleComplete_frame ⟨[⟨1, "A", false, "t0"⟩], 2⟩ ⟨none, none⟩ 1
    ⟨⟨1, "A", false, "t0"⟩, by simp, rfl⟩

/-- One call to a mutating `TodoModel` method (with the clock reading for
`addTodo` made explicit). -/
inductive Op where
  | add (text now : String)
  | toggle (id : Nat)
  | delete (id : Nat)
  | update (id : Nat) (newText : String)
  | clearCompleted
  | clearAll
deriving Repr, DecidableEq

/-- Dispatch one operation against the current model and store. -/
def applyOp (m : TodoModel) (s : MStore) : Op → OpResult
  | .add text now => m.addTodo s text now
  | .toggle id => m.toggleComplete s id
  | .delete id => m.deleteTodo s id
  | .update id newText => m.updateTodo s id newText
  | .clearCompleted => m.clearCompleted s
  | .clearAll => m.clearAll s

/-- The ids issued by one operation: a successful `addTodo` issues the
current `nextId`, everything else issues nothing. -/
def issuedBy (m : TodoModel) : Op → List Nat
  | .add text _ => if text = "" ∨ jsTrim text = "" then [] else [m.nextId]
  | _ => []

/-- Run a sequence of operations, collecting the ids issued along the way. -/
def runOps (m : TodoModel) (s : MStore) : List Op → TodoModel × MStore × List Nat
  | [] => (m, s, [])
  | op :: ops =>
    let r := applyOp m s op
    let rest := runOps r.model r.store ops
    (rest.1, rest.2.1, issuedBy m op ++ rest.2.2)

/-- Each operation issues either no id or exactly the current `nextId`. -/
theorem issuedBy_eq (m : TodoModel) (op : Op) :
    issuedBy m op = [] ∨ issuedBy m op = [m.nextId] := by
  cases op with
  | add text now =>
    simp only [issuedBy]
    split
    · exact Or.inl rfl
    · exact Or.inr rfl
  | toggle id => exact Or.inl rfl
  | delete id => exact Or.inl rfl
  | update id newText => exact Or.inl rfl
  | clearCompleted => exact Or.inl rfl
  | clearAll => exact Or.inl rfl

/-- Per-operation facts: `nextId` never decreases, any issued id lies
between the old `nextId` (inclusive) and the new one (exclusive), and the
operation either leaves both model and store untouched or leaves the store
holding exactly the new model's list and counter. -/
theorem applyOp_step (m : TodoModel) (s : MStore) (op : Op) :
    m.nextId ≤ (applyOp m s op).model.nextId ∧
    (∀ i ∈ issuedBy m op, m.nextId ≤ i ∧ i < (applyOp m s op).model.nextId) ∧
    (((applyOp m s op).store = s ∧ (applyOp m s op).model = m) ∨
      ((applyOp m s op).store.items = some (applyOp m s op).model.todos ∧
        (applyOp m s op).store.nextId = some (applyOp m s op).model.nextId)) := by
  cases op with
  | add text now =>
    simp only [applyOp, TodoModel.addTodo, issuedBy]
    split
    · exact ⟨le_refl _, by simp, Or.inl ⟨rfl, rfl⟩⟩
    · refine ⟨Nat.le_succ _, ?_, Or.inr ⟨rfl, rfl⟩⟩
      intro i hi
      simp only [List.mem_singleton] at hi
      subst hi
      exact ⟨le_refl _, Nat.lt_succ_self _⟩
  | toggle id =>
    simp only [applyOp, TodoModel.toggleComplete, issuedBy]
    rcases h : m.todos.find? (fun t => t.id == id) with _ | u
    · simp [h]
    · simp only [h]
      exact ⟨le_refl _, by simp, Or.inr ⟨rfl, rfl⟩⟩
  | delete id =>
    exact ⟨le_refl _, by simp [issuedBy], Or.inr ⟨rfl, rfl⟩⟩
  | update id newText =>
    simp only [applyOp, TodoModel.updateTodo, issuedBy]
    split
    · exact ⟨le_refl _, by simp, Or.inr ⟨rfl, rfl⟩⟩
    · exact ⟨le_refl _, by simp, Or.inl ⟨rfl, rfl⟩⟩
  | clearCompleted =>
    exact ⟨le_refl _, by simp [issuedBy], Or.inr ⟨rfl, rfl⟩⟩
  | clearAll =>
    exact ⟨le_refl _, by simp [issuedBy], Or.inr ⟨rfl, rfl⟩⟩

/-- Invariant of `runOps`: the issued ids form a strictly increasing chain
bounded below by the starting `nextId` and strictly above by the final one,
`nextId` never decreases, and the final store is either the initial one
(with the model also untouched) or holds exactly the final model's list and
counter. -/
theorem runOps_inv (ops : List Op) : ∀ (m : TodoModel) (s : MStore),
    List.Chain' (· < ·) (runOps m s ops).2.2 ∧
    (∀ i ∈ (runOps m s ops).2.2, m.nextId ≤ i ∧ i < (runOps m s ops).1.nextId) ∧
    m.nextId ≤ (runOps m s ops).1.nextId ∧
    (((runOps m s ops).2.1 = s ∧ (runOps m s ops).1 = m) ∨
      ((runOps m s ops).2.1.items = some (runOps m s ops).1.todos ∧
        (runOps m s ops).2.1.nextId = some (runOps m s ops).1.nextId)) := by
  induction ops with
  | nil =>
    intro m s
    exact ⟨List.chain'_nil, by simp [runOps], le_refl _, Or.inl ⟨rfl, rfl⟩⟩
  | cons op ops ih =>
    intro m s
    obtain ⟨sle, sbnd, sstore⟩ := applyOp_step m s op
    obtain ⟨ichain, ibnd, inext, istore⟩ := ih (applyOp m s op).model (applyOp m s op).store
    simp only [runOps]
    refine ⟨?_, ?_, ?_, ?_⟩
    · rcases issuedBy_eq m op with hi | hi
      · rw [hi, List.nil_append]
        exact ichain
      · rw [hi, List.singleton_append, List.chain'_cons']
        refine ⟨?_, ichain⟩
        intro y hy
        rcases hids : (runOps (applyOp m s op).model (applyOp m s op).store ops).2.2 with
          _ | ⟨b, tl⟩
        · rw [hids] at hy
          exact absurd hy (by simp)
        · rw [hids] at hy
          simp only [List.head?_cons, Option.mem_def, Option.some.injEq] at hy
          have hb : b ∈ (runOps (applyOp m s op).model (applyOp m s op).store ops).2.2 := by
            rw [hids]; exact List.mem_cons_self _ _
          have h1 := (ibnd b hb).1
          have h2 := (sbnd m.nextId (by rw [hi]; exact List.mem_singleton_self _)).2
          omega
    · intro i hi
      rcases List.mem_append.mp hi with h | h
      · obtain ⟨hlo, hhi⟩ := sbnd i h
        exact ⟨hlo, lt_of_lt_of_le hhi inext⟩
      · obtain ⟨hlo, hhi⟩ := ibnd i h
        exact ⟨le_trans sle hlo, hhi⟩
    · exact le_trans sle inext
    · rcases istore with ⟨hs1, hm1⟩ | ⟨hit, hni⟩
      · rcases sstore with ⟨hs2, hm2⟩ | ⟨hit2, hni2⟩
        · exact Or.inl ⟨hs1.trans hs2, hm1.trans hm2⟩
        · refine Or.inr ⟨?_, ?_⟩
          · rw [hs1, hm1]; exact hit2
          · rw [hs1, hm1]; exact hni2
      · exact Or.inr ⟨hit, hni⟩

/-- C2: within one `TodoModel` instance constructed from any store, over
every sequence of operations the ids issued by `addTodo` are strictly
increasing and never repeat regardless of intervening deletions; `nextId`
stays strictly greater than every id ever issued; whenever the model
persists it writes `nextId` alongside the task list (the final store is
either untouched or holds exactly the final list and counter); and in the
concrete run add "A" (id 1), delete 1, add "B", task B gets id 2, not 1. -/
theorem issued_ids_strictly_increasing (s : MStore) (ops : List Op) :
    List.Chain' (· < ·) (runOps (TodoModel.init s).model s ops).2.2 ∧
    (runOps (TodoModel.init s).model s ops).2.2.Nodup ∧
    (∀ i ∈ (runOps (TodoModel.init s).model s ops).2.2,
      i < (runOps (TodoModel.init s).model s ops).1.nextId) ∧
    ((runOps (TodoModel.init s).model s ops).2.1 = s ∨
      ((runOps (TodoModel.init s).model s ops).2.1.items
          = some (runOps (TodoModel.init s).model s ops).1.todos ∧
        (runOps (TodoModel.init s).model s ops).2.1.nextId
          = some (runOps (TodoModel.init s).model s ops).1.nextId)) ∧
    (∀ c₁ c₂, (runOps (TodoModel.init (⟨none, none⟩ : MStore)).model ⟨none, none⟩
        [Op.add "A" c₁, Op.delete 1, Op.add "B" c₂]).2.2 = [1, 2]) := by
  obtain ⟨hchain, hbnd, _, hstore⟩ := runOps_inv ops (TodoModel.init s).model s
  refine ⟨hchain, ?_, fun i hi => (hbnd i hi).2, ?_, ?_⟩
  · exact (List.chain'_iff_pairwise.mp hchain).imp Nat.ne_of_lt
  · rcases hstore with ⟨h1, _⟩ | h2
    · exact Or.inl h1
    · exact Or.inr h2
  · intro c₁ c₂
    rfl

/-- Witness for C2 at a concrete input: the run add "A", delete 1, add "B"
issues a strictly increasing id list, and that list is `[1, 2]`. -/
theorem issued_ids_strictly_increasing_witness :
    List.Chain' (· < ·) (runOps (TodoModel.init (⟨none, none⟩ : MStore)).model ⟨none, none⟩
      [Op.add "A" "t1", Op.delete 1, Op.add "B" "t2"]).2.2 ∧
    (runOps (TodoModel.init (⟨none, none⟩ : MStore)).model ⟨none, none⟩
      [Op.add "A" "t1", Op.delete 1, Op.add "B" "t2"]).2.2 = [1, 2] :=
  ⟨(issued_ids_strictly_increasing ⟨none, none⟩
      [Op.add "A" "t1", Op.delete 1, Op.add "B" "t2"]).1,
   (issued_ids_strictly_increasing ⟨none, none⟩ []).2.2.2.2 "t1" "t2"⟩

/-- Witness for C3 at a concrete input: importing a two-task list replaces
the sequence, persists it, and notifies once. -/
theorem importTasks_replaces_witness :
    (TodoModel.importTasks ⟨[⟨1, "A", false, "t0"⟩], 2⟩ ⟨none, none⟩
      [⟨7, "X", true, "t1"⟩, ⟨9, "Y", false, "t2"⟩]).model.todos
        = [⟨7, "X", true, "t1"⟩, ⟨9, "Y", false, "t2"⟩] ∧
    (TodoModel.importTasks ⟨[⟨1, "A", false, "t0"⟩], 2⟩ ⟨none, none⟩
      [⟨7, "X", true, "t1"⟩, ⟨9, "Y", false, "t2"⟩]).notifies = 1 :=
  ⟨(importTasks_replaces ⟨[⟨1, "A", false, "t0"⟩], 2⟩ ⟨none, none⟩
      [⟨7, "X", true, "t1"⟩, ⟨9, "Y", false, "t2"⟩]).1,
   (importTasks_replaces ⟨[⟨1, "A", false, "t0"⟩], 2⟩ ⟨none, none⟩
      [⟨7, "X", true, "t1"⟩, ⟨9, "Y", false, "t2"⟩]).2.2.2⟩

/-- Witness for the amended C4 at concrete inputs: delete always notifies
once; add of non-empty text notifies once; toggle of an existing id
notifies once. -/
theorem notify_counts_witness :
    (TodoModel.deleteTodo ⟨[⟨1, "A", false, "t0"⟩], 2⟩ ⟨none, none⟩ 1).notifies = 1 ∧
    (TodoModel.addTodo ⟨[⟨1, "A", false, "t0"⟩], 2⟩ ⟨none, none⟩ "B" "t1").notifies = 1 ∧
    (TodoModel.toggleComplete ⟨[⟨1, "A", false, "t0"⟩], 2⟩ ⟨none, none⟩ 1).notifies = 1 := by
  have h := notify_counts ⟨[⟨1, "A", false, "t0"⟩], 2⟩ ⟨none, none⟩ 1 "B" "t1"
  exact ⟨h.1, h.2.2.2.1.trans (by decide), h.2.2.2.2.1.trans (by decide)⟩

/-- Witness for C5 at concrete timestamps. -/
theorem roundTrip_persistence_witness :
    let s0 : MStore := ⟨none, none⟩
    let r1 := (TodoModel.init s0).model.addTodo s0 "A" "tA"
    let r2 := r1.model.addTodo r1.store "B" "tB"
    let r3 := r2.model.toggleComplete r2.store 1
    (TodoModel.init r3.store).model.todos
        = [⟨1, "A", true, "tA"⟩, ⟨2, "B", false, "tB"⟩] ∧
      (TodoModel.init r3.store).model.nextId = 2 + 1 :=
  roundTrip_persistence "tA" "tB"

/-- Witness for C7 at a concrete model: one active and one completed task. -/
theorem counts_partition_witness :
    (⟨[⟨1, "A", false, "t0"⟩, ⟨2, "B", true, "t1"⟩], 3⟩ : TodoModel).activeCount
      + (⟨[⟨1, "A", false, "t0"⟩, ⟨2, "B", true, "t1"⟩], 3⟩ : TodoModel).completedCount
      = 2 :=
  counts_partition ⟨[⟨1, "A", false, "t0"⟩, ⟨2, "B", true, "t1"⟩], 3⟩

/-- Witness for C10 at a concrete store: construction leaves the store
untouched, performs no write or notification, and reads the stored list and
counter. -/
theorem init_only_reads_witness :
    (TodoModel.init ⟨some [⟨1, "A", false, "t0"⟩], some 5⟩).store
        = (⟨some [⟨1, "A", false, "t0"⟩], some 5⟩ : MStore) ∧
    (TodoModel.init ⟨some [⟨1, "A", false, "t0"⟩], some 5⟩).saveCalls = 0 ∧
    (TodoModel.init ⟨some [⟨1, "A", false, "t0"⟩], some 5⟩).notifies = 0 ∧
    (TodoModel.init ⟨some [⟨1, "A", false, "t0"⟩], some 5⟩).model.todos
        = [⟨1, "A", false, "t0"⟩] ∧
    (TodoModel.init ⟨some [⟨1, "A", false, "t0"⟩], some 5⟩).model.nextId = 5 := by
  have h := init_only_reads ⟨some [⟨1, "A", false, "t0"⟩], some 5⟩
  exact ⟨h.1, h.2.1, h.2.2.2.1, h.2.2.2.2.1, h.2.2.2.2.2⟩

end Lab9
